import Mathlib

/-!
Verification development for the a-sync core package
(src/packages/core/src/index.ts and src/packages/core/src/error.ts).

The TypeScript source is shallowly embedded as follows.

* JavaScript objects that only serve as data payloads (the TReturn values,
  the argument objects) are association lists of string key/value pairs
  (type Data).  Stringification of a field value by template interpolation
  is modelled by the values already being strings.
* The localForage store is an association list from string keys to stored
  values (type Val), where a stored value is either a data payload or the
  pending-item list that lives under the reserved pending-items key.
* Every asynchronous operation of the source is a function in the monad
  M a = World -> Except JsError a x World : state threading plus JavaScript
  exceptions.  Side effects performed before a throw survive the throw,
  exactly as in the source, so the state is threaded through the error
  branch as well.
* Nondeterminism of the environment (does a store getItem / setItem call
  reject, what does the user supplied getFn / setFn return) is resolved by
  oracle streams carried inside the World.  Each invocation consumes the
  head of its stream.  An exhausted store stream means the store call
  succeeds; an exhausted callback stream means the callback rejects.
  A timeout of the write callback (executeWithTimeout racing the callback
  against a timer) is one more rejection outcome, so it is represented by
  a rejecting entry in the callback stream.
* new Date().toISOString() is modelled by a logical clock: each call
  returns a fresh timestamp string and bumps the clock.
* emitData / emitError iterate over the registered observer callbacks; a
  single broadcast is recorded as one event in World.events (the fan-out
  over the observer array multiplies every broadcast uniformly and no
  claim depends on the number of registered observers).
* The async generator callGet is modelled by recording its yields, in
  order, in World.yields; running the model corresponds to driving the
  generator to completion.
-/

/-- Data payload: a JavaScript object used as a value, as an association
list of string fields.  Field values are already rendered as strings. -/
def Data : Type := List (String × String)

deriving instance DecidableEq for Data

/-- A JavaScript error value: its constructor name and its message. -/
structure JsError where
  name : String
  message : String
deriving DecidableEq

/-- The AYESyncError constructor from src/packages/core/src/error.ts:
it prefixes the message with the string AYESyncError colon space and sets
the name field. -/
def mkAYESyncError (message : String) : JsError :=
  { name := "AYESyncError", message := "AYESyncError: " ++ message }

/-- A generic (non AYESyncError) JavaScript Error, used for rejections
produced by the environment oracles. -/
def jsErr (message : String) : JsError :=
  { name := "Error", message := message }

/-- A pending item as persisted by savePendingItem
(src/packages/core/src/types.ts, interface PendingItem). -/
structure PendingItem where
  params : Data
  dataKey : String
  maxRetryCount : Int
  lastRetryAttempt : String
  key : String
deriving DecidableEq

/-- A value stored in the localForage store: either a data payload (a
cached entry) or the pending-item list kept under the reserved key. -/
inductive Val where
  | data : Data → Val
  | list : List PendingItem → Val
deriving DecidableEq

/-- The source of a callGet yield. -/
inductive Source where
  | storage : Source
  | api : Source
deriving DecidableEq

/-- One element yielded by the callGet async generator. -/
structure GetYield where
  data : Option Val
  source : Source
deriving DecidableEq

/-- An observer broadcast: one emitData or emitError call
(data payload or error, defineKey, optional dataKey). -/
inductive Ev where
  | data : Val → String → Option String → Ev
  | err : JsError → String → Option String → Ev
deriving DecidableEq

deriving instance DecidableEq for Except

/-- The world state threaded through every operation: the store contents,
the recorded observer broadcasts and generator yields, the logical clock,
the connectivity flag, the environment oracles, and invocation counters
for the user callbacks. -/
structure World where
  store : List (String × Val)
  events : List Ev
  yields : List GetYield
  time : Nat
  online : Bool
  getFnResults : List (Except JsError Data)
  setFnResults : List (Except JsError Data)
  storeGetFails : List (Option JsError)
  storeSetFails : List (Option JsError)
  getCalls : Nat
  setCalls : Nat
deriving DecidableEq

/-- The effect monad of the embedding: state threading over World with
JavaScript exceptions.  Effects performed before a throw are kept. -/
def M (α : Type) : Type := World → Except JsError α × World

instance : Monad M where
  pure a := fun w => (Except.ok a, w)
  bind x f := fun w =>
    match x w with
    | (Except.ok a, w') => f a w'
    | (Except.error e, w') => (Except.error e, w')

/-- throw: a JavaScript throw statement. -/
def throwM {α : Type} (e : JsError) : M α := fun w => (Except.error e, w)

/-- try / catch: run the body; on a throw, run the handler on the thrown
error in the state as it was at the moment of the throw. -/
def tryCatchM {α : Type} (body : M α) (handler : JsError → M α) : M α := fun w =>
  match body w with
  | (Except.ok a, w') => (Except.ok a, w')
  | (Except.error e, w') => handler e w'

/-- Lookup in the store association list (first binding wins). -/
def lookupStore (key : String) : List (String × Val) → Option Val
  | [] => none
  | (k, v) :: rest => if k = key then some v else lookupStore key rest

/-- Store update: the new binding shadows older ones. -/
def storePut (key : String) (v : Val) (s : List (String × Val)) : List (String × Val) :=
  (key, v) :: s

/-- store.getItem: consumes one store-read oracle entry; on a rejecting
entry the call throws, otherwise it resolves with the stored value
(none models the null returned by localForage for an absent key). -/
def storeGetItem (key : String) : M (Option Val) := fun w =>
  match w.storeGetFails with
  | [] => (Except.ok (lookupStore key w.store), w)
  | none :: rest => (Except.ok (lookupStore key w.store), { w with storeGetFails := rest })
  | some e :: rest => (Except.error e, { w with storeGetFails := rest })

/-- store.setItem: consumes one store-write oracle entry; on a rejecting
entry the call throws and the store is unchanged, otherwise the binding
is written. -/
def storeSetItem (key : String) (v : Val) : M PUnit := fun w =>
  match w.storeSetFails with
  | [] => (Except.ok PUnit.unit, { w with store := storePut key v w.store })
  | none :: rest =>
      (Except.ok PUnit.unit, { w with store := storePut key v w.store, storeSetFails := rest })
  | some e :: rest => (Except.error e, { w with storeSetFails := rest })

/-- Invocation of the user supplied getFn: bumps the invocation counter,
consumes one oracle entry and either resolves or rejects with it. -/
def invokeGetFn : M Data := fun w =>
  let w' := { w with getCalls := w.getCalls + 1, getFnResults := w.getFnResults.tail }
  match w.getFnResults.head? with
  | none => (Except.error (jsErr "remote call failed"), w')
  | some (Except.ok d) => (Except.ok d, w')
  | some (Except.error e) => (Except.error e, w')

/-- Invocation of the user supplied setFn: bumps the invocation counter,
consumes one oracle entry and either resolves or rejects with it. -/
def invokeSetFn : M Data := fun w =>
  let w' := { w with setCalls := w.setCalls + 1, setFnResults := w.setFnResults.tail }
  match w.setFnResults.head? with
  | none => (Except.error (jsErr "remote call failed"), w')
  | some (Except.ok d) => (Except.ok d, w')
  | some (Except.error e) => (Except.error e, w')

/-- executeWithTimeout races the promise against a timer
(src lines 99-108).  A timer win is one more way for the awaited promise
to reject, so in the embedding the race is resolved by the oracle stream
of the callback itself and the combinator is the identity. -/
def executeWithTimeout (x : M Data) : M Data := x

/-- new Date().toISOString(): returns a fresh timestamp from the logical
clock and advances the clock. -/
def isoTime (n : Nat) : String := "1970-01-01T00:00:00." ++ toString n ++ "Z"

def tick : M String := fun w =>
  (Except.ok (isoTime w.time), { w with time := w.time + 1 })

/-- window.navigator.onLine (src lines 139-141). -/
def isOnlineM : M Bool := fun w => (Except.ok w.online, w)

/-- A yield statement of the callGet async generator. -/
def doYield (y : GetYield) : M PUnit := fun w =>
  (Except.ok PUnit.unit, { w with yields := w.yields ++ [y] })

/-- The per-entity sync unit (class SyncDefineApi): its configuration.
The presence of get / set callbacks is a flag; their behavior lives in the
World oracles.  Observer callback arrays are not represented: a broadcast
is recorded as one event (see the header comment). -/
structure SyncUnit where
  key : String
  appName : String
  apiSetRetries : Int
  uniqueProperties : List String
  hasGetFn : Bool
  hasSetFn : Bool
deriving DecidableEq

/-- this.appName + SyncDefineApi.PENDING_ITEMS_KEY (src lines 68-70). -/
def getPendingItemsLocalKey (u : SyncUnit) : String :=
  u.appName ++ "a-sync-pending-items"

/-- emitData (src lines 110-114): one broadcast to the data observers. -/
def emitData (u : SyncUnit) (v : Val) (dataKey : Option String) : M PUnit := fun w =>
  (Except.ok PUnit.unit, { w with events := w.events ++ [Ev.data v u.key dataKey] })

/-- emitError (src lines 116-120): one broadcast to the error observers. -/
def emitError (u : SyncUnit) (e : JsError) (dataKey : Option String) : M PUnit := fun w =>
  (Except.ok PUnit.unit, { w with events := w.events ++ [Ev.err e u.key dataKey] })

/-- An argument value passed to callGet / callSet, before validation. -/
inductive JsArg where
  | null : JsArg
  | array : JsArg
  | prim : String → JsArg
  | obj : Data → JsArg
deriving DecidableEq

/-- The test performed by validateArgs (src lines 60-66): value truthy,
typeof object, not an array.  null, arrays and primitives all fail it
(for an object the truthiness test never fails). -/
def isValidArg : JsArg → Bool
  | JsArg.obj _ => true
  | _ => false

/-- The fields of a validated argument object. -/
def argFields : JsArg → Data
  | JsArg.obj d => d
  | _ => []

/-- validateArgs (src lines 60-66). -/
def validateArgs (a : JsArg) : M PUnit :=
  if isValidArg a then pure PUnit.unit
  else throwM (mkAYESyncError "Arguments must be an object type for query parameters")

/-- args[prop] on a payload object: the first binding of the field,
none when the field is absent (typeof undefined). -/
def lookupProp (prop : String) : Data → Option String
  | [] => none
  | (k, v) :: rest => if k = prop then some v else lookupProp prop rest

/-- Insertion into a sorted list of strings, for the sort of the
unique-property names. -/
def insertSorted (s : String) : List String → List String
  | [] => [s]
  | t :: ts => if s ≤ t then s :: t :: ts else t :: insertSorted s ts

/-- sort((a, b) => a.localeCompare(b)) on the unique-property names,
modelled as insertion sort by the string order (localeCompare in the
embedding is the codepoint order; any fixed total comparison gives the
same determinism properties). -/
def sortStrings : List String → List String
  | [] => []
  | s :: ss => insertSorted s (sortStrings ss)

/-- generateStorageKey (src lines 122-137): identity key alone when no
unique properties are declared; otherwise the declared properties are
sorted, each property present in the args is rendered as name colon value,
absent ones are dropped, the pairs are joined with a pipe and appended to
the identity key after a separating pipe (only when the joined hash is
nonempty). -/
def generateStorageKey (key : String) (uniqueProperties : List String) (args : Data) : String :=
  if uniqueProperties.length = 0 then key
  else
    let rendered := (sortStrings uniqueProperties).map (fun prop =>
      match lookupProp prop args with
      | some v => some (prop ++ ":" ++ v)
      | none => none)
    let uniqueHash := String.intercalate "|" (rendered.filterMap id)
    key ++ (if uniqueHash ≠ "" then "|" ++ uniqueHash else "")

/-- Shallow object merge by spread: the fields of base with values
overridden by extra where present, followed by the fields of extra that
are new.  Models the optimistic-data construction of callSet. -/
def objMerge (base extra : Data) : Data :=
  base.map (fun p =>
    match lookupProp p.1 extra with
    | some v => (p.1, v)
    | none => p) ++
  extra.filter (fun p => (lookupProp p.1 base).isNone)

/-- (await getItem of the pending key) or [] : the stored pending list,
with the empty list for an absent value.  A non-list value stored under
the reserved key is outside the behaviors exercised here and also reads
as the empty list. -/
def valToPendingList : Option Val → List PendingItem
  | some (Val.list l) => l
  | some (Val.data _) => []
  | none => []

/-- typeof existingData is object test plus spread of a possibly null
existing value: the merge base is the stored payload when one is present
(spreading null contributes nothing). -/
def valToData : Option Val → Data
  | some (Val.data d) => d
  | some (Val.list _) => []
  | none => []

/-- The missing-callback guard at the top of callGet (src lines
152-154). -/
def requireGetFn (u : SyncUnit) : M PUnit :=
  if !u.hasGetFn then throwM (mkAYESyncError "Get function not defined")
  else pure PUnit.unit

/-- The missing-callback guard at the top of callSet (src lines
193-195). -/
def requireSetFn (u : SyncUnit) : M PUnit :=
  if !u.hasSetFn then throwM (mkAYESyncError "Set function not defined")
  else pure PUnit.unit

/-- The cached-entry block of callGet (src lines 162-165): when the loaded
value is neither undefined nor null, broadcast it and yield the storage
element. -/
def yieldStored (u : SyncUnit) (storageKey : String) (storedData : Option Val) : M PUnit :=
  match storedData with
  | some v => do
      emitData u v (some storageKey)
      doYield { data := some v, source := Source.storage }
  | none => pure PUnit.unit

/-- The optimistic persist of callSet (src lines 207-209): only performed
when the connectivity signal reports online. -/
def writeOptimistic (online : Bool) (storageKey : String) (optimisticData : Data) : M PUnit :=
  if online then storeSetItem storageKey (Val.data optimisticData)
  else pure PUnit.unit

/-- callGet (src lines 149-181): the stale-while-revalidate read.  The
guard on a missing getFn and the argument validation come first; the body
loads the cached entry, yields it when present and non-null, then invokes
the read callback, persists and yields its result; any throw inside the
body lands in the shared catch, which broadcasts a wrapped error and
yields a final null api element. -/
def callGet (u : SyncUnit) (args : JsArg) : M PUnit := do
  let _g1 ← requireGetFn u
  let _g2 ← validateArgs args
  let storageKey := generateStorageKey u.key u.uniqueProperties (argFields args)
  tryCatchM
    (do
      let storedData ← storeGetItem storageKey
      let _g3 ← yieldStored u storageKey storedData
      let d ← invokeGetFn
      storeSetItem storageKey (Val.data d)
      emitData u (Val.data d) (some storageKey)
      doYield { data := some (Val.data d), source := Source.api })
    (fun error => do
      emitError u (mkAYESyncError error.message) (some storageKey)
      doYield { data := none, source := Source.api })

/-- savePendingItem (src lines 284-309): load the pending list, append a
fresh item carrying the configured retry budget and a fresh timestamp,
persist the whole list back; a failure anywhere is swallowed after one
error broadcast. -/
def savePendingItem (u : SyncUnit) (params : Data) (dataKey : String) : M PUnit :=
  tryCatchM
    (do
      let stored ← storeGetItem (getPendingItemsLocalKey u)
      let pendingItems := valToPendingList stored
      let ts ← tick
      let pendingItem : PendingItem :=
        { params := params
          dataKey := dataKey
          maxRetryCount := u.apiSetRetries
          lastRetryAttempt := ts
          key := u.key }
      storeSetItem (getPendingItemsLocalKey u) (Val.list (pendingItems ++ [pendingItem])))
    (fun _ =>
      emitError u (mkAYESyncError ("Failed to save pending item: " ++ dataKey)) none)

/-- removePendingItem (src lines 311-326): load the pending list, keep
only the items whose dataKey differs from the given one, persist back; a
failure anywhere is swallowed after one error broadcast. -/
def removePendingItem (u : SyncUnit) (dataKey : String) : M PUnit :=
  tryCatchM
    (do
      let stored ← storeGetItem (getPendingItemsLocalKey u)
      let pendingItems := valToPendingList stored
      let updatedItems := pendingItems.filter (fun item => item.dataKey ≠ dataKey)
      storeSetItem (getPendingItemsLocalKey u) (Val.list updatedItems))
    (fun _ =>
      emitError u (mkAYESyncError ("Failed to remove pending item: " ++ dataKey)) none)

/-- this.setFn?.(item.params) in retryPendingItems: when no setFn is
attached the optional call evaluates to undefined without invoking
anything (untimed; the replay path does not race a timer). -/
def invokeSetFnOpt (u : SyncUnit) : M (Option Data) :=
  if u.hasSetFn then do
    let d ← invokeSetFn
    pure (some d)
  else pure none

/-- The retry loop of callSet (src lines 226-244), as structural recursion
on the number of remaining iterations; the argument starts at the full
apiSetRetries and the iteration with remaining = 1 is the one whose index
equals apiSetRetries - 1, i.e. the last one, which broadcasts the error
and saves the pending item.  A success returns early; a store failure
after a successful callback is caught by the same per-iteration catch and
counts as a failed attempt, as in the source. -/
def setRetryLoop (u : SyncUnit) (params : Data) (storageKey : String) :
    Nat → M (Option Data)
  | 0 => pure none
  | Nat.succ k =>
    tryCatchM
      (do
        let result ← executeWithTimeout invokeSetFn
        storeSetItem storageKey (Val.data result)
        emitData u (Val.data result) (some storageKey)
        pure (some result))
      (fun error =>
        if k = 0 then do
          emitError u (mkAYESyncError error.message) (some storageKey)
          savePendingItem u params storageKey
          pure none
        else
          setRetryLoop u params storageKey k)

/-- callSet (src lines 190-249): the optimistic write.  Guard on a missing
setFn, validate, derive the key; in the try block load the existing entry,
build the optimistic merge, persist it when online, invoke the write
callback under the timeout race, persist and broadcast its result.  Any
throw lands in the catch: a zero or negative retry budget broadcasts the
error and saves a pending item at once, otherwise the retry loop runs;
either way the call resolves with a null data field. -/
def callSet (u : SyncUnit) (params : JsArg) : M (Option Data) := do
  let _s1 ← requireSetFn u
  let _s2 ← validateArgs params
  let storageKey := generateStorageKey u.key u.uniqueProperties (argFields params)
  tryCatchM
    (do
      let existingData ← storeGetItem storageKey
      let optimisticData := objMerge (valToData existingData) (argFields params)
      let online ← isOnlineM
      let _s3 ← writeOptimistic online storageKey optimisticData
      let result ← executeWithTimeout invokeSetFn
      storeSetItem storageKey (Val.data result)
      emitData u (Val.data result) (some storageKey)
      pure (some result))
    (fun error => do
      if u.apiSetRetries = 0 ∨ u.apiSetRetries < 0 then do
        emitError u (mkAYESyncError error.message) (some storageKey)
        savePendingItem u (argFields params) storageKey
        pure none
      else
        setRetryLoop u (argFields params) storageKey u.apiSetRetries.toNat)

/-- The for loop of retryPendingItems (src lines 336-357) over the items
whose key matches this unit.  On a defined callback result with a truthy
dataKey the result is persisted at the dataKey and the item is dequeued.
On a throw: an item whose maxRetryCount is falsy or nonpositive is
dropped; otherwise the source decrements maxRetryCount and refreshes
lastRetryAttempt on the in-memory copy of the item - a mutation that is
never persisted, because savePendingItem reloads the stored list and
appends a fresh item carrying the configured budget - and then calls
savePendingItem.  The dead in-memory mutation is therefore not part of
the observable state transition and has no counterpart here beyond this
comment. -/
def retryItemsLoop (u : SyncUnit) : List PendingItem → M PUnit
  | [] => pure PUnit.unit
  | item :: rest => do
    tryCatchM
      (do
        let result ← invokeSetFnOpt u
        match result with
        | some r =>
            if item.dataKey ≠ "" then do
              storeSetItem item.dataKey (Val.data r)
              removePendingItem u item.dataKey
            else pure PUnit.unit
        | none => pure PUnit.unit)
      (fun _ =>
        if item.maxRetryCount = 0 ∨ item.maxRetryCount ≤ 0 then
          removePendingItem u item.dataKey
        else if item.dataKey.length > 0 then
          savePendingItem u item.params item.dataKey
        else pure PUnit.unit)
    retryItemsLoop u rest

/-- retryPendingItems (src lines 328-367): load the pending list, filter
to this unit's items, replay them one by one; a throw escaping the whole
block (only the initial load can produce one, the per-item work is
self-catching) is swallowed after one error broadcast. -/
def retryPendingItems (u : SyncUnit) : M PUnit :=
  tryCatchM
    (do
      let stored ← storeGetItem (getPendingItemsLocalKey u)
      let pendingItems := valToPendingList stored
      let currentItems := pendingItems.filter (fun item => item.key = u.key)
      retryItemsLoop u currentItems)
    (fun error =>
      emitError u
        (mkAYESyncError
          ("Failed to retry pending items from " ++ u.key ++ ": " ++ error.message))
        none)

/-- The parameters accepted by define (src/packages/core/src/types.ts,
IDefineParams): the key, the unique-property names, and the optional
retry budget (the optional timeout is resolved by the oracle model). -/
structure DefineParams where
  key : String
  uniqueProperties : List String
  apiSetRetries : Option Int
deriving DecidableEq

/-- The registry (class SyncEngineApi): application name, the list of
defined keys in registration order, and the key-to-unit map as an
association list with in-place replacement on re-assignment, matching
JavaScript object property assignment. -/
structure Registry where
  appName : String
  definedKeys : List String
  definedKeysMap : List (String × SyncUnit)
deriving DecidableEq

def mkRegistry (appName : String) : Registry :=
  { appName := appName, definedKeys := [], definedKeysMap := [] }

/-- JavaScript object property assignment on the key-to-unit map: replace
the existing binding in place, or append a new one. -/
def mapSet : List (String × SyncUnit) → String → SyncUnit → List (String × SyncUnit)
  | [], k, v => [(k, v)]
  | (k', v') :: rest, k, v =>
      if k' = k then (k, v) :: rest else (k', v') :: mapSet rest k v

def mapGet (m : List (String × SyncUnit)) (k : String) : Option SyncUnit :=
  match m with
  | [] => none
  | (k', v) :: rest => if k' = k then some v else mapGet rest k

/-- define (src lines 428-454): reject when the unique-property list
filtered to nonempty strings is empty, otherwise build the unit from the
original (unfiltered) params - the constructor receives params itself -
assign it into the map (silently replacing any earlier unit under the
same key) and append the key to definedKeys unconditionally. -/
def defineReg (r : Registry) (params : DefineParams) :
    Except JsError (Registry × SyncUnit) :=
  let uniqueProperties := params.uniqueProperties.filter (fun p => p.length > 0)
  if uniqueProperties.length = 0 then
    Except.error (mkAYESyncError "'uniqueProperties' must be an array of strings")
  else
    let definition : SyncUnit :=
      { key := params.key
        appName := r.appName
        apiSetRetries := params.apiSetRetries.getD 3
        uniqueProperties := params.uniqueProperties
        hasGetFn := false
        hasSetFn := false }
    Except.ok
      ({ r with
          definedKeysMap := mapSet r.definedKeysMap params.key definition
          definedKeys := r.definedKeys ++ [params.key] },
        definition)

/-- getDefined (src lines 456-463). -/
def getDefinedReg (r : Registry) (k : String) : Except JsError SyncUnit :=
  match mapGet r.definedKeysMap k with
  | some definition => Except.ok definition
  | none => Except.error (mkAYESyncError ("Key " ++ k ++ " not defined"))

/-- The loop of retryAllPendingItems over definedKeys.  The source
discards the unit after draining it; the returned list records, as
instrumentation, which unit was drained for each key, in order. -/
def retryAllLoop (r : Registry) : List String → M (List SyncUnit)
  | [] => pure []
  | key :: rest => do
      match mapGet r.definedKeysMap key with
      | none => throwM (mkAYESyncError ("Key " ++ key ++ " not defined"))
      | some api => do
          retryPendingItems api
          let others ← retryAllLoop r rest
          pure (api :: others)

/-- retryAllPendingItems (src lines 469-474): drain every unit reachable
through definedKeys, sequentially, in registration order (one drain per
occurrence of a key in definedKeys). -/
def retryAllPendingItems (r : Registry) : M (List SyncUnit) :=
  retryAllLoop r r.definedKeys

/-- Boolean string-prefix test on character lists. -/
def listIsPrefix : List Char → List Char → Bool
  | [], _ => true
  | _ :: _, [] => false
  | a :: as, b :: bs => a == b && listIsPrefix as bs

/-- Whether a JavaScript error value is an AYESyncError as produced by the
constructor in error.ts: the name is set and the message carries the
prefix. -/
def isAYEb (e : JsError) : Bool :=
  (e.name = "AYESyncError" : Bool) && listIsPrefix "AYESyncError: ".data e.message.data

/-- Whether an event is an error broadcast. -/
def isErrEv : Ev → Bool
  | Ev.err _ _ _ => true
  | Ev.data _ _ _ => false

/-- Whether an event, if it is an error broadcast, carries an
AYESyncError. -/
def evOK : Ev → Bool
  | Ev.err e _ _ => isAYEb e
  | Ev.data _ _ _ => true

/-- Every error broadcast in the list carries an AYESyncError. -/
def errEventsOK (evs : List Ev) : Prop := ∀ ev ∈ evs, evOK ev = true

/-- The number of error broadcasts in an event list. -/
def errCount (evs : List Ev) : Nat := (evs.filter isErrEv).length

/-- A computation that only ever appends AYESyncError error broadcasts to
the event log. -/
def PreservesErrOK {α : Type} (x : M α) : Prop :=
  ∀ w, errEventsOK w.events → errEventsOK (x w).2.events

/-- A computation that never loses recorded error broadcasts. -/
def ErrCountMono {α : Type} (x : M α) : Prop :=
  ∀ w, errCount w.events ≤ errCount (x w).2.events

/-- A computation that resolves on every world (no escaping throw). -/
def NeverThrowsM {α : Type} (x : M α) : Prop :=
  ∀ w, ∃ a w', x w = (Except.ok a, w')

/-- A computation that only appends events to the log, and only events
whose error payload (when they are error broadcasts) is an AYESyncError.
This gives both errEventsOK preservation and errCount monotonicity. -/
def AppendsOKEvents {α : Type} (x : M α) : Prop :=
  ∀ w, ∃ evs, (x w).2.events = w.events ++ evs ∧ errEventsOK evs

/-- A computation over an optional payload that never resolves with
none. -/
def ReturnsSome (x : M (Option Data)) : Prop :=
  ∀ w a w', x w = (Except.ok a, w') → a ≠ none

/-- The owner-isolation invariant: the pending list stored under the
reserved key exists and its sublist of items owned by k2 is exactly S. -/
def pendingFilterInv (u : SyncUnit) (k2 : String) (S : List PendingItem) (w : World) : Prop :=
  ∃ L', lookupStore (getPendingItemsLocalKey u) w.store = some (Val.list L') ∧
    L'.filter (fun j => j.key = k2) = S

/-- A quiescent base world: empty store and logs, clock at zero, offline,
all oracle streams empty (store calls succeed, callback calls reject). -/
def w0 : World :=
  { store := [], events := [], yields := [], time := 0, online := false,
    getFnResults := [], setFnResults := [], storeGetFails := [], storeSetFails := [],
    getCalls := 0, setCalls := 0 }

/-- Concrete replay-owner unit used in the drain scenarios. -/
def unitReplay : SyncUnit :=
  { key := "k", appName := "app", apiSetRetries := 3, uniqueProperties := ["q"],
    hasGetFn := false, hasSetFn := true }

/-- A pending item of unitReplay with two retries left. -/
def itemReplay : PendingItem :=
  { params := [], dataKey := "k|q:1", maxRetryCount := 2, lastRetryAttempt := "t0",
    key := "k" }

/-- World holding exactly itemReplay in the pending list, with a write
callback that rejects every invocation. -/
def wReplay : World :=
  { w0 with store := [(getPendingItemsLocalKey unitReplay, Val.list [itemReplay])] }

/-- Concrete read unit used in the storage-failure scenario. -/
def unitRead : SyncUnit :=
  { key := "g", appName := "app", apiSetRetries := 3, uniqueProperties := [],
    hasGetFn := true, hasSetFn := false }

/-- World whose first store read rejects while the read callback would
succeed if it were invoked. -/
def wStorageDown : World :=
  { w0 with storeGetFails := [some (jsErr "boom")],
            getFnResults := [Except.ok [("a", "1")]] }

/-- Concrete write unit used in the exhaustion scenario. -/
def unitWrite : SyncUnit :=
  { key := "s", appName := "app", apiSetRetries := 3, uniqueProperties := [],
    hasGetFn := false, hasSetFn := true }

/-- Concrete owner whose drain is run in the owner-isolation scenario. -/
def unitOwnerA : SyncUnit :=
  { key := "a", appName := "app", apiSetRetries := 3, uniqueProperties := ["b"],
    hasGetFn := false, hasSetFn := true }

/-- A pending item of owner a, dataKey derived from its unique property. -/
def itemOwnerA : PendingItem :=
  { params := [("b", "x")], dataKey := "a|b:x", maxRetryCount := 2,
    lastRetryAttempt := "t0", key := "a" }

/-- A pending item of a second owner whose identity key contains a pipe,
so that its derived dataKey collides with itemOwnerA's dataKey. -/
def itemOwnerB : PendingItem :=
  { params := [], dataKey := "a|b:x", maxRetryCount := 2,
    lastRetryAttempt := "t0", key := "a|b:x" }

/-- World holding both owners' items, with owner a's write callback
succeeding on its first replay attempt. -/
def wTwoOwners : World :=
  { w0 with store := [(getPendingItemsLocalKey unitOwnerA, Val.list [itemOwnerA, itemOwnerB])],
            setFnResults := [Except.ok [("r", "1")]] }

/-- A pending item of a third owner with a distinct dataKey, used in the
owner-isolation witness. -/
def itemOwnerZ : PendingItem :=
  { params := [], dataKey := "z", maxRetryCount := 1,
    lastRetryAttempt := "t0", key := "z" }

/-- World holding owner a's item and owner z's item, with no dataKey
collision between them. -/
def wIso : World :=
  { w0 with store := [(getPendingItemsLocalKey unitOwnerA, Val.list [itemOwnerA, itemOwnerZ])] }

/-- A unit with no read callback attached. -/
def unitBare : SyncUnit :=
  { key := "n", appName := "app", apiSetRetries := 3, uniqueProperties := [],
    hasGetFn := false, hasSetFn := false }

/-- A unit with both callbacks attached. -/
def unitFull : SyncUnit :=
  { key := "f", appName := "app", apiSetRetries := 3, uniqueProperties := [],
    hasGetFn := true, hasSetFn := true }

/-! Run equations for the monad and the primitive effects. -/

@[simp] theorem pureM_apply {α : Type} (a : α) (w : World) :
    (pure a : M α) w = (Except.ok a, w) := rfl

@[simp] theorem bindM_apply {α β : Type} (x : M α) (f : α → M β) (w : World) :
    (x >>= f) w =
      match x w with
      | (Except.ok a, w') => f a w'
      | (Except.error e, w') => (Except.error e, w') := rfl

@[simp] theorem throwM_apply {α : Type} (e : JsError) (w : World) :
    (throwM e : M α) w = (Except.error e, w) := rfl

@[simp] theorem tryCatchM_apply {α : Type} (body : M α) (handler : JsError → M α) (w : World) :
    tryCatchM body handler w =
      match body w with
      | (Except.ok a, w') => (Except.ok a, w')
      | (Except.error e, w') => handler e w' := rfl

theorem lookupStore_storePut_ne (k k' : String) (v : Val) (s : List (String × Val))
    (h : k' ≠ k) : lookupStore k (storePut k' v s) = lookupStore k s := by
  simp [storePut, lookupStore, h]

/-! Membership in the insertion sort used by generateStorageKey. -/

theorem mem_insertSorted (x s : String) (l : List String) :
    x ∈ insertSorted s l ↔ x = s ∨ x ∈ l := by
  induction l with
  | nil => simp [insertSorted]
  | cons t ts ih =>
      by_cases h : s ≤ t
      · simp [insertSorted, h]
      · simp [insertSorted, h, ih]
        tauto

theorem mem_sortStrings (x : String) (l : List String) :
    x ∈ sortStrings l ↔ x ∈ l := by
  induction l with
  | nil => simp [sortStrings]
  | cons s ss ih => simp [sortStrings, mem_insertSorted, ih]

/-- C5: the derived storage key is determined by the values of the
declared unique properties alone: two argument objects that agree on every
declared property (whatever their field order and whatever extra fields
they carry) derive the same key, and with an empty unique-property list
the derived key is the identity key unchanged. -/
theorem generateStorageKey_deterministic (key : String) (props : List String)
    (a1 a2 : Data) (h : ∀ p ∈ props, lookupProp p a1 = lookupProp p a2) :
    generateStorageKey key props a1 = generateStorageKey key props a2 ∧
    generateStorageKey key [] a1 = key := by
  constructor
  · unfold generateStorageKey
    rcases hl : props.length with _ | n
    · simp
    · simp only [hl]
      have hmap : (sortStrings props).map (fun prop =>
          match lookupProp prop a1 with
          | some v => some (prop ++ ":" ++ v)
          | none => none) =
          (sortStrings props).map (fun prop =>
          match lookupProp prop a2 with
          | some v => some (prop ++ ":" ++ v)
          | none => none) := by
        apply List.map_congr_left
        intro p hp
        rw [h p ((mem_sortStrings p props).mp hp)]
      simp [hmap]
  · simp [generateStorageKey]

/-- Witness for C5 at concrete inputs: the two argument objects list their
fields in different orders and the first carries an extra undeclared
field. -/
theorem generateStorageKey_deterministic_witness :
    (∀ p ∈ ["b", "a"],
        lookupProp p [("b", "2"), ("a", "1"), ("c", "9")] =
        lookupProp p [("a", "1"), ("b", "2")]) ∧
    (generateStorageKey "k" ["b", "a"] [("b", "2"), ("a", "1"), ("c", "9")] =
        generateStorageKey "k" ["b", "a"] [("a", "1"), ("b", "2")] ∧
      generateStorageKey "k" [] [("b", "2"), ("a", "1"), ("c", "9")] = "k") :=
  ⟨by decide,
    generateStorageKey_deterministic "k" ["b", "a"]
      [("b", "2"), ("a", "1"), ("c", "9")] [("a", "1"), ("b", "2")] (by decide)⟩

/-- C1 (code bug evaluation): replaying a pending item with a positive
remaining retry count (2) against a write callback that fails leaves the
original item in the list untouched and appends a second item for the
same dataKey whose retry count is the configured budget (3), not one less
than before: the in-memory decrement in retryPendingItems is discarded
because savePendingItem reloads the stored list and appends a fresh item
carrying this.apiSetRetries. -/
theorem retryPendingItems_failed_attempt_duplicates_item :
    (retryPendingItems unitReplay wReplay).1 = Except.ok PUnit.unit ∧
    lookupStore (getPendingItemsLocalKey unitReplay)
        ((retryPendingItems unitReplay wReplay).2.store) =
      some (Val.list
        [itemReplay,
          { params := [], dataKey := "k|q:1", maxRetryCount := 3,
            lastRetryAttempt := isoTime 0, key := "k" }]) ∧
    (valToPendingList (lookupStore (getPendingItemsLocalKey unitReplay)
        ((retryPendingItems unitReplay wReplay).2.store))).length = 2 ∧
    ∀ i ∈ valToPendingList (lookupStore (getPendingItemsLocalKey unitReplay)
        ((retryPendingItems unitReplay wReplay).2.store)), i.maxRetryCount ≠ 1 := by
  refine ⟨rfl, rfl, rfl, by decide⟩

/-- C2 (counterexample to the claim as stated): with a read callback
attached and ready to succeed, a failing cache read does not leave the
remote fetch still happening - the read callback is never invoked (its
invocation counter stays at zero), while the failure is surfaced to the
error observers and the sequence ends with a null api element. -/
theorem callGet_storage_failure_skips_remote_cex :
    wStorageDown.getCalls = 0 ∧
    (∃ d, wStorageDown.getFnResults = [Except.ok d]) ∧
    ((callGet unitRead (JsArg.obj []) wStorageDown).2.getCalls = 0) ∧
    ((callGet unitRead (JsArg.obj []) wStorageDown).2.events =
      [Ev.err (mkAYESyncError "boom") "g" (some "g")]) ∧
    ((callGet unitRead (JsArg.obj []) wStorageDown).2.yields =
      [{ data := none, source := Source.api }]) := by
  refine ⟨rfl, ⟨[("a", "1")], rfl⟩, rfl, rfl, rfl⟩

/-- C6 (counterexample to the claim as stated): argument validation does
not precede all other behavior of the read operation - the missing
callback guard runs first, so read(null) on a unit without a read
callback fails with the NotConfigured message, not with the
ValidationError message. -/
theorem read_null_without_callback_not_validation_cex :
    unitBare.hasGetFn = false ∧
    callGet unitBare JsArg.null w0 =
      (Except.error (mkAYESyncError "Get function not defined"), w0) ∧
    mkAYESyncError "Get function not defined" ≠
      mkAYESyncError "Arguments must be an object type for query parameters" := by
  refine ⟨rfl, rfl, by decide⟩

/-- C7 (counterexample to the claim as stated): the pending list holds an
item of owner a and an item of a second owner whose identity key contains
a pipe, giving both items the same dataKey; draining owner a with a
succeeding write callback removes the other owner's item as well, because
removePendingItem filters by dataKey alone. -/
theorem drain_removes_other_owner_item_cex :
    itemOwnerB.key ≠ unitOwnerA.key ∧
    lookupStore (getPendingItemsLocalKey unitOwnerA) wTwoOwners.store =
      some (Val.list [itemOwnerA, itemOwnerB]) ∧
    (retryPendingItems unitOwnerA wTwoOwners).1 = Except.ok PUnit.unit ∧
    lookupStore (getPendingItemsLocalKey unitOwnerA)
        ((retryPendingItems unitOwnerA wTwoOwners).2.store) = some (Val.list []) := by
  refine ⟨by decide, rfl, rfl, rfl⟩

/-- C2 (amended): when loading the cached entry fails, the read operation
still completes normally: the failure is surfaced to the error observers
(wrapped as an AYESyncError carrying the storage failure's message and
the storage key) and the sequence ends with a single null api element,
but the remote read callback is not invoked - the storage failure jumps
to the shared catch handler past the remote fetch. -/
theorem callGet_storage_failure_behavior (u : SyncUnit) (args : JsArg) (w : World)
    (e : JsError) (rest : List (Option JsError))
    (hget : u.hasGetFn = true) (hargs : isValidArg args = true)
    (hfail : w.storeGetFails = some e :: rest) :
    callGet u args w =
      (Except.ok PUnit.unit,
        { w with storeGetFails := rest,
                 events := w.events ++ [Ev.err (mkAYESyncError e.message) u.key
                   (some (generateStorageKey u.key u.uniqueProperties (argFields args)))],
                 yields := w.yields ++ [{ data := none, source := Source.api }] }) := by
  simp [callGet, requireGetFn, validateArgs, hargs, hget, storeGetItem, hfail,
    emitError, doYield]

/-- Witness for the amended C2 at concrete inputs. -/
theorem callGet_storage_failure_behavior_witness :
    (unitRead.hasGetFn = true ∧ isValidArg (JsArg.obj []) = true ∧
      wStorageDown.storeGetFails = [some (jsErr "boom")]) ∧
    callGet unitRead (JsArg.obj []) wStorageDown =
      (Except.ok PUnit.unit,
        { wStorageDown with
            storeGetFails := [],
            events := wStorageDown.events ++ [Ev.err (mkAYESyncError (jsErr "boom").message)
              unitRead.key
              (some (generateStorageKey unitRead.key unitRead.uniqueProperties
                (argFields (JsArg.obj []))))],
            yields := wStorageDown.yields ++ [{ data := none, source := Source.api }] }) :=
  ⟨⟨rfl, rfl, rfl⟩,
    callGet_storage_failure_behavior unitRead (JsArg.obj []) wStorageDown
      (jsErr "boom") [] rfl rfl rfl⟩

/-- C6 (amended): on a unit with the relevant callback attached, a null,
array or primitive argument makes read and write fail with the
ValidationError before any effect at all: the world - store, events,
yields, clock, oracles - is returned unchanged.  On a unit without the
callback the missing-callback guard fires first instead (see the
counterexample), so the validation check is the first behavior only after
that guard. -/
theorem validation_eagerness_amended (u : SyncUnit) (args : JsArg) (w : World)
    (hargs : isValidArg args = false) :
    (u.hasGetFn = true →
      callGet u args w =
        (Except.error
          (mkAYESyncError "Arguments must be an object type for query parameters"), w)) ∧
    (u.hasSetFn = true →
      callSet u args w =
        (Except.error
          (mkAYESyncError "Arguments must be an object type for query parameters"), w)) := by
  constructor
  · intro hget
    simp [callGet, requireGetFn, validateArgs, hargs, hget]
  · intro hset
    simp [callSet, requireSetFn, validateArgs, hargs, hset]

/-- Witness for the amended C6 at concrete inputs. -/
theorem validation_eagerness_amended_witness :
    isValidArg JsArg.null = false ∧
    (unitFull.hasGetFn = true →
      callGet unitFull JsArg.null w0 =
        (Except.error
          (mkAYESyncError "Arguments must be an object type for query parameters"), w0)) ∧
    (unitFull.hasSetFn = true →
      callSet unitFull JsArg.null w0 =
        (Except.error
          (mkAYESyncError "Arguments must be an object type for query parameters"), w0)) :=
  ⟨rfl,
    (validation_eagerness_amended unitFull JsArg.null w0 rfl).1,
    (validation_eagerness_amended unitFull JsArg.null w0 rfl).2⟩

theorem errCount_append (a b : List Ev) :
    errCount (a ++ b) = errCount a + errCount b := by
  simp [errCount, List.filter_append]

/-- C3: against a write callback that fails on every invocation and a
retry budget of 3, callSet invokes the callback exactly 4 times (the
initial attempt plus 3 retries), resolves with a null data field, records
exactly one more error broadcast, and appends exactly one pending item
whose key field is the entity's identity key.  The storage adapter is
healthy, the derived storage key does not collide with the reserved
pending-items key, and the reserved key holds a list (or nothing). -/
theorem callSet_write_exhaustion (u : SyncUnit) (p : JsArg) (w : World)
    (hset : u.hasSetFn = true) (hretries : u.apiSetRetries = 3)
    (hargs : isValidArg p = true)
    (hfn : w.setFnResults = []) (hsg : w.storeGetFails = []) (hss : w.storeSetFails = [])
    (hkey : generateStorageKey u.key u.uniqueProperties (argFields p) ≠
      getPendingItemsLocalKey u)
    (hpend : ∀ d, lookupStore (getPendingItemsLocalKey u) w.store ≠ some (Val.data d)) :
    (callSet u p w).1 = Except.ok none ∧
    (callSet u p w).2.setCalls = w.setCalls + 4 ∧
    errCount ((callSet u p w).2.events) = errCount w.events + 1 ∧
    lookupStore (getPendingItemsLocalKey u) ((callSet u p w).2.store) =
      some (Val.list (valToPendingList (lookupStore (getPendingItemsLocalKey u) w.store) ++
        [{ params := argFields p,
           dataKey := generateStorageKey u.key u.uniqueProperties (argFields p),
           maxRetryCount := 3, lastRetryAttempt := isoTime w.time, key := u.key }])) := by
  obtain ⟨st, ev, yl, tm, onl, gR, sR, sgF, ssF, gC, sC⟩ := w
  simp only at hfn hsg hss hpend hkey
  subst hfn hsg hss
  cases onl <;>
    simp [callSet, requireSetFn, writeOptimistic, validateArgs, hargs, hset, hretries,
      storeGetItem, storeSetItem,
      invokeSetFn, executeWithTimeout, isOnlineM, emitError, emitData, savePendingItem,
      setRetryLoop, tick, doYield, errCount_append, errCount, isErrEv, hkey,
      storePut, lookupStore]

/-- Witness for C3 at concrete inputs. -/
theorem callSet_write_exhaustion_witness :
    (unitWrite.hasSetFn = true ∧ unitWrite.apiSetRetries = 3 ∧
      isValidArg (JsArg.obj [("x", "1")]) = true ∧ w0.setFnResults = [] ∧
      w0.storeGetFails = [] ∧ w0.storeSetFails = [] ∧
      generateStorageKey unitWrite.key unitWrite.uniqueProperties
          (argFields (JsArg.obj [("x", "1")])) ≠ getPendingItemsLocalKey unitWrite ∧
      ∀ d, lookupStore (getPendingItemsLocalKey unitWrite) w0.store ≠ some (Val.data d)) ∧
    ((callSet unitWrite (JsArg.obj [("x", "1")]) w0).1 = Except.ok none ∧
      (callSet unitWrite (JsArg.obj [("x", "1")]) w0).2.setCalls = w0.setCalls + 4 ∧
      errCount ((callSet unitWrite (JsArg.obj [("x", "1")]) w0).2.events) =
        errCount w0.events + 1 ∧
      lookupStore (getPendingItemsLocalKey unitWrite)
          ((callSet unitWrite (JsArg.obj [("x", "1")]) w0).2.store) =
        some (Val.list (valToPendingList
            (lookupStore (getPendingItemsLocalKey unitWrite) w0.store) ++
          [{ params := argFields (JsArg.obj [("x", "1")]),
             dataKey := generateStorageKey unitWrite.key unitWrite.uniqueProperties
               (argFields (JsArg.obj [("x", "1")])),
             maxRetryCount := 3, lastRetryAttempt := isoTime w0.time,
             key := unitWrite.key }]))) :=
  ⟨⟨rfl, rfl, rfl, rfl, rfl, rfl, by decide, by simp [w0, lookupStore]⟩,
    callSet_write_exhaustion unitWrite (JsArg.obj [("x", "1")]) w0
      rfl rfl rfl rfl rfl rfl (by decide) (by simp [w0, lookupStore])⟩

/-- C4: for a unit with a read callback and a valid argument object, under
every outcome of the storage adapter and of the read callback, the
sequence produced by callGet is finite with at most two elements: at most
one storage element which, when present, is first and carries a non-null
cached value, and exactly one terminal api element; and the generator
itself completes without raising to the consumer. -/
theorem callGet_event_cardinality (u : SyncUnit) (args : JsArg) (w : World)
    (hget : u.hasGetFn = true) (hargs : isValidArg args = true) (hy : w.yields = []) :
    (callGet u args w).1 = Except.ok PUnit.unit ∧
    ∃ pre last, (callGet u args w).2.yields = pre ++ [last] ∧
      last.source = Source.api ∧
      (pre = [] ∨ ∃ v, pre = [{ data := some v, source := Source.storage }]) := by
  obtain ⟨st, ev, yl, tm, onl, gR, sR, sgF, ssF, gC, sC⟩ := w
  simp only at hy
  subst hy
  rcases sgF with _ | ⟨_ | e, sgFr⟩
  case nil =>
    rcases hl : lookupStore (generateStorageKey u.key u.uniqueProperties (argFields args)) st
      with _ | v <;>
    rcases gR with _ | ⟨_ | _, gRr⟩ <;>
    rcases ssF with _ | ⟨_ | _, ssFr⟩ <;>
      simp [callGet, requireGetFn, yieldStored, validateArgs, hargs, hget, storeGetItem,
        storeSetItem, invokeGetFn,
        executeWithTimeout, emitData, emitError, doYield, hl] <;>
      first
        | exact ⟨[], _, rfl, rfl, Or.inl rfl⟩
        | exact ⟨[_], _, rfl, rfl, Or.inr ⟨v, rfl⟩⟩
  case cons.none =>
    rcases hl : lookupStore (generateStorageKey u.key u.uniqueProperties (argFields args)) st
      with _ | v <;>
    rcases gR with _ | ⟨_ | _, gRr⟩ <;>
    rcases ssF with _ | ⟨_ | _, ssFr⟩ <;>
      simp [callGet, requireGetFn, yieldStored, validateArgs, hargs, hget, storeGetItem,
        storeSetItem, invokeGetFn,
        executeWithTimeout, emitData, emitError, doYield, hl] <;>
      first
        | exact ⟨[], _, rfl, rfl, Or.inl rfl⟩
        | exact ⟨[_], _, rfl, rfl, Or.inr ⟨v, rfl⟩⟩
  case cons.some =>
    simp [callGet, requireGetFn, validateArgs, hargs, hget, storeGetItem, emitError, doYield]
    exact ⟨[], _, rfl, rfl, Or.inl rfl⟩

/-- Witness for C4 at concrete inputs. -/
theorem callGet_event_cardinality_witness :
    (unitRead.hasGetFn = true ∧ isValidArg (JsArg.obj []) = true ∧ w0.yields = []) ∧
    ((callGet unitRead (JsArg.obj []) w0).1 = Except.ok PUnit.unit ∧
      ∃ pre last, (callGet unitRead (JsArg.obj []) w0).2.yields = pre ++ [last] ∧
        last.source = Source.api ∧
        (pre = [] ∨ ∃ v, pre = [{ data := some v, source := Source.storage }])) :=
  ⟨⟨rfl, rfl, rfl⟩, callGet_event_cardinality unitRead (JsArg.obj []) w0 rfl rfl rfl⟩

/-! Closure properties of the effect combinators, used to settle the
global error-handling claims without enumerating oracle outcomes. -/

theorem listIsPrefix_append (l t : List Char) : listIsPrefix l (l ++ t) = true := by
  induction l with
  | nil => rfl
  | cons a as ih => simp [listIsPrefix, ih]

theorem isAYEb_mk (m : String) : isAYEb (mkAYESyncError m) = true := by
  simp only [isAYEb, mkAYESyncError, String.data_append]
  simp [listIsPrefix]

theorem errEventsOK_append {a b : List Ev} (ha : errEventsOK a) (hb : errEventsOK b) :
    errEventsOK (a ++ b) := by
  intro ev hev
  rcases List.mem_append.mp hev with h | h
  · exact ha ev h
  · exact hb ev h

theorem errEventsOK_nil : errEventsOK [] := by
  intro ev hev
  cases hev

theorem nt_pure {α : Type} (a : α) : NeverThrowsM (pure a : M α) := by
  intro w; exact ⟨a, w, rfl⟩

theorem nt_bind {α β : Type} {x : M α} {f : α → M β}
    (hx : NeverThrowsM x) (hf : ∀ a, NeverThrowsM (f a)) : NeverThrowsM (x >>= f) := by
  intro w
  obtain ⟨a, w1, hx1⟩ := hx w
  obtain ⟨b, w2, hf1⟩ := hf a w1
  exact ⟨b, w2, by simp [hx1, hf1]⟩

theorem nt_tryCatch {α : Type} {body : M α} {handler : JsError → M α}
    (hh : ∀ e, NeverThrowsM (handler e)) : NeverThrowsM (tryCatchM body handler) := by
  intro w
  rcases hb : body w with ⟨res, w1⟩
  cases res with
  | ok a => exact ⟨a, w1, by simp [tryCatchM, hb]⟩
  | error e =>
      obtain ⟨a, w2, hh1⟩ := hh e w1
      exact ⟨a, w2, by simp [tryCatchM, hb, hh1]⟩

theorem nt_emitData (u : SyncUnit) (v : Val) (dk : Option String) :
    NeverThrowsM (emitData u v dk) := by
  intro w; exact ⟨PUnit.unit, _, rfl⟩

theorem nt_emitError (u : SyncUnit) (e : JsError) (dk : Option String) :
    NeverThrowsM (emitError u e dk) := by
  intro w; exact ⟨PUnit.unit, _, rfl⟩

theorem nt_doYield (y : GetYield) : NeverThrowsM (doYield y) := by
  intro w; exact ⟨PUnit.unit, _, rfl⟩

theorem nt_savePendingItem (u : SyncUnit) (p : Data) (dk : String) :
    NeverThrowsM (savePendingItem u p dk) := by
  unfold savePendingItem
  exact nt_tryCatch (fun e => nt_emitError _ _ _)

theorem nt_removePendingItem (u : SyncUnit) (dk : String) :
    NeverThrowsM (removePendingItem u dk) := by
  unfold removePendingItem
  exact nt_tryCatch (fun e => nt_emitError _ _ _)

theorem nt_retryPendingItems (u : SyncUnit) : NeverThrowsM (retryPendingItems u) := by
  unfold retryPendingItems
  exact nt_tryCatch (fun e => nt_emitError _ _ _)

theorem nt_setRetryLoop (u : SyncUnit) (p : Data) (sk : String) (n : Nat) :
    NeverThrowsM (setRetryLoop u p sk n) := by
  induction n with
  | zero => exact nt_pure none
  | succ k ih =>
      unfold setRetryLoop
      apply nt_tryCatch
      intro e
      by_cases hk : k = 0
      · simp only [hk, if_pos rfl]
        apply nt_bind (nt_emitError _ _ _)
        intro _
        exact nt_bind (nt_savePendingItem _ _ _) (fun _ => nt_pure none)
      · simp only [if_neg hk]
        exact ih

theorem aoe_pure {α : Type} (a : α) : AppendsOKEvents (pure a : M α) := by
  intro w; exact ⟨[], by simp, errEventsOK_nil⟩

theorem aoe_throw {α : Type} (e : JsError) : AppendsOKEvents (throwM e : M α) := by
  intro w; exact ⟨[], by simp [throwM], errEventsOK_nil⟩

theorem aoe_bind {α β : Type} {x : M α} {f : α → M β}
    (hx : AppendsOKEvents x) (hf : ∀ a, AppendsOKEvents (f a)) :
    AppendsOKEvents (x >>= f) := by
  intro w
  rcases hrun : x w with ⟨res, w1⟩
  obtain ⟨e1, he1, hok1⟩ := hx w
  rw [hrun] at he1
  simp only at he1
  cases res with
  | ok a =>
      obtain ⟨e2, he2, hok2⟩ := hf a w1
      refine ⟨e1 ++ e2, ?_, errEventsOK_append hok1 hok2⟩
      simp only [bindM_apply, hrun]
      rw [he2, he1, List.append_assoc]
  | error e =>
      refine ⟨e1, ?_, hok1⟩
      simp only [bindM_apply, hrun]
      exact he1

theorem aoe_tryCatch {α : Type} {body : M α} {handler : JsError → M α}
    (hb : AppendsOKEvents body) (hh : ∀ e, AppendsOKEvents (handler e)) :
    AppendsOKEvents (tryCatchM body handler) := by
  intro w
  rcases hrun : body w with ⟨res, w1⟩
  obtain ⟨e1, he1, hok1⟩ := hb w
  rw [hrun] at he1
  simp only at he1
  cases res with
  | ok a =>
      refine ⟨e1, ?_, hok1⟩
      simp only [tryCatchM, hrun]
      exact he1
  | error e =>
      obtain ⟨e2, he2, hok2⟩ := hh e w1
      refine ⟨e1 ++ e2, ?_, errEventsOK_append hok1 hok2⟩
      simp only [tryCatchM, hrun]
      rw [he2, he1, List.append_assoc]

theorem aoe_storeGetItem (k : String) : AppendsOKEvents (storeGetItem k) := by
  intro w
  refine ⟨[], ?_, errEventsOK_nil⟩
  unfold storeGetItem
  rcases w.storeGetFails with _ | ⟨_ | e, r⟩ <;> simp

theorem aoe_storeSetItem (k : String) (v : Val) : AppendsOKEvents (storeSetItem k v) := by
  intro w
  refine ⟨[], ?_, errEventsOK_nil⟩
  unfold storeSetItem
  rcases w.storeSetFails with _ | ⟨_ | e, r⟩ <;> simp

theorem aoe_invokeGetFn : AppendsOKEvents invokeGetFn := by
  intro w
  refine ⟨[], ?_, errEventsOK_nil⟩
  unfold invokeGetFn
  rcases w.getFnResults with _ | ⟨_ | e, r⟩ <;> simp

theorem aoe_invokeSetFn : AppendsOKEvents invokeSetFn := by
  intro w
  refine ⟨[], ?_, errEventsOK_nil⟩
  unfold invokeSetFn
  rcases w.setFnResults with _ | ⟨_ | e, r⟩ <;> simp

theorem aoe_tick : AppendsOKEvents tick := by
  intro w; exact ⟨[], by simp [tick], errEventsOK_nil⟩

theorem aoe_isOnlineM : AppendsOKEvents isOnlineM := by
  intro w; exact ⟨[], by simp [isOnlineM], errEventsOK_nil⟩

theorem aoe_doYield (y : GetYield) : AppendsOKEvents (doYield y) := by
  intro w; exact ⟨[], by simp [doYield], errEventsOK_nil⟩

theorem aoe_emitData (u : SyncUnit) (v : Val) (dk : Option String) :
    AppendsOKEvents (emitData u v dk) := by
  intro w
  refine ⟨[Ev.data v u.key dk], by simp [emitData], ?_⟩
  intro ev hev
  rcases List.mem_singleton.mp hev with rfl
  rfl

theorem aoe_emitError_mk (u : SyncUnit) (m : String) (dk : Option String) :
    AppendsOKEvents (emitError u (mkAYESyncError m) dk) := by
  intro w
  refine ⟨[Ev.err (mkAYESyncError m) u.key dk], by simp [emitError], ?_⟩
  intro ev hev
  rcases List.mem_singleton.mp hev with rfl
  simp [evOK, isAYEb_mk]

theorem aoe_errCount {α : Type} {x : M α} (h : AppendsOKEvents x) (w : World) :
    errCount w.events ≤ errCount ((x w).2.events) := by
  obtain ⟨evs, he, _⟩ := h w
  rw [he, errCount_append]
  omega

theorem aoe_errEventsOK {α : Type} {x : M α} (h : AppendsOKEvents x) (w : World)
    (hw : errEventsOK w.events) : errEventsOK ((x w).2.events) := by
  obtain ⟨evs, he, hok⟩ := h w
  rw [he]
  exact errEventsOK_append hw hok


theorem aoe_ite {α : Type} {c : Prop} [Decidable c] {x y : M α}
    (hx : AppendsOKEvents x) (hy : AppendsOKEvents y) :
    AppendsOKEvents (if c then x else y) := by
  by_cases h : c
  · simpa [h] using hx
  · simpa [h] using hy

theorem aoe_validateArgs (a : JsArg) : AppendsOKEvents (validateArgs a) := by
  unfold validateArgs
  exact aoe_ite (aoe_pure _) (aoe_throw _)

theorem aoe_savePendingItem (u : SyncUnit) (p : Data) (dk : String) :
    AppendsOKEvents (savePendingItem u p dk) := by
  unfold savePendingItem
  apply aoe_tryCatch
  · apply aoe_bind (aoe_storeGetItem _)
    intro stored
    apply aoe_bind aoe_tick
    intro ts
    exact aoe_storeSetItem _ _
  · intro e
    exact aoe_emitError_mk _ _ _

theorem aoe_removePendingItem (u : SyncUnit) (dk : String) :
    AppendsOKEvents (removePendingItem u dk) := by
  unfold removePendingItem
  apply aoe_tryCatch
  · apply aoe_bind (aoe_storeGetItem _)
    intro stored
    exact aoe_storeSetItem _ _
  · intro e
    exact aoe_emitError_mk _ _ _

theorem aoe_invokeSetFnOpt (u : SyncUnit) : AppendsOKEvents (invokeSetFnOpt u) := by
  unfold invokeSetFnOpt
  apply aoe_ite
  · exact aoe_bind aoe_invokeSetFn (fun d => aoe_pure _)
  · exact aoe_pure _

theorem aoe_setRetryLoop (u : SyncUnit) (p : Data) (sk : String) (n : Nat) :
    AppendsOKEvents (setRetryLoop u p sk n) := by
  induction n with
  | zero => exact aoe_pure none
  | succ k ih =>
      unfold setRetryLoop
      apply aoe_tryCatch
      · apply aoe_bind
        · show AppendsOKEvents (executeWithTimeout invokeSetFn)
          unfold executeWithTimeout
          exact aoe_invokeSetFn
        · intro result
          apply aoe_bind (aoe_storeSetItem _ _)
          intro _
          apply aoe_bind (aoe_emitData _ _ _)
          intro _
          exact aoe_pure _
      · intro e
        by_cases hk : k = 0
        · simp only [hk, if_pos rfl]
          apply aoe_bind (aoe_emitError_mk _ _ _)
          intro _
          apply aoe_bind (aoe_savePendingItem _ _ _)
          intro _
          exact aoe_pure _
        · simp only [if_neg hk]
          exact ih

theorem aoe_requireGetFn (u : SyncUnit) : AppendsOKEvents (requireGetFn u) := by
  unfold requireGetFn
  exact aoe_ite (aoe_throw _) (aoe_pure _)

theorem aoe_requireSetFn (u : SyncUnit) : AppendsOKEvents (requireSetFn u) := by
  unfold requireSetFn
  exact aoe_ite (aoe_throw _) (aoe_pure _)

theorem aoe_yieldStored (u : SyncUnit) (sk : String) (stored : Option Val) :
    AppendsOKEvents (yieldStored u sk stored) := by
  unfold yieldStored
  cases stored with
  | some v => exact aoe_bind (aoe_emitData _ _ _) (fun _ => aoe_doYield _)
  | none => exact aoe_pure _

theorem aoe_writeOptimistic (online : Bool) (sk : String) (d : Data) :
    AppendsOKEvents (writeOptimistic online sk d) := by
  unfold writeOptimistic
  exact aoe_ite (aoe_storeSetItem _ _) (aoe_pure _)

theorem aoe_callSet (u : SyncUnit) (p : JsArg) : AppendsOKEvents (callSet u p) := by
  unfold callSet
  apply aoe_bind (aoe_requireSetFn _)
  intro _
  apply aoe_bind (aoe_validateArgs _)
  intro _
  apply aoe_tryCatch
  · apply aoe_bind (aoe_storeGetItem _)
    intro existing
    apply aoe_bind aoe_isOnlineM
    intro online
    apply aoe_bind (aoe_writeOptimistic _ _ _)
    intro _
    apply aoe_bind
    · show AppendsOKEvents (executeWithTimeout invokeSetFn)
      unfold executeWithTimeout
      exact aoe_invokeSetFn
    · intro result
      apply aoe_bind (aoe_storeSetItem _ _)
      intro _
      apply aoe_bind (aoe_emitData _ _ _)
      intro _
      exact aoe_pure _
  · intro e
    by_cases hc : u.apiSetRetries = 0 ∨ u.apiSetRetries < 0
    · simp only [if_pos hc]
      apply aoe_bind (aoe_emitError_mk _ _ _)
      intro _
      apply aoe_bind (aoe_savePendingItem _ _ _)
      intro _
      exact aoe_pure _
    · simp only [if_neg hc]
      exact aoe_setRetryLoop _ _ _ _

theorem aoe_callGet (u : SyncUnit) (args : JsArg) : AppendsOKEvents (callGet u args) := by
  unfold callGet
  apply aoe_bind (aoe_requireGetFn _)
  intro _
  apply aoe_bind (aoe_validateArgs _)
  intro _
  apply aoe_tryCatch
  · apply aoe_bind (aoe_storeGetItem _)
    intro stored
    apply aoe_bind (aoe_yieldStored _ _ _)
    · intro _
      apply aoe_bind aoe_invokeGetFn
      intro d
      apply aoe_bind (aoe_storeSetItem _ _)
      intro _
      apply aoe_bind (aoe_emitData _ _ _)
      intro _
      exact aoe_doYield _
  · intro e
    exact aoe_bind (aoe_emitError_mk _ _ _) (fun _ => aoe_doYield _)

theorem aoe_retryItemsLoop (u : SyncUnit) (items : List PendingItem) :
    AppendsOKEvents (retryItemsLoop u items) := by
  induction items with
  | nil => exact aoe_pure _
  | cons item rest ih =>
      unfold retryItemsLoop
      apply aoe_bind
      · apply aoe_tryCatch
        · apply aoe_bind (aoe_invokeSetFnOpt _)
          intro result
          cases result with
          | some r =>
              apply aoe_ite
              · exact aoe_bind (aoe_storeSetItem _ _) (fun _ => aoe_removePendingItem _ _)
              · exact aoe_pure _
          | none => exact aoe_pure _
        · intro e
          apply aoe_ite (aoe_removePendingItem _ _)
          apply aoe_ite (aoe_savePendingItem _ _ _)
          exact aoe_pure _
      · intro _
        exact ih

theorem aoe_retryPendingItems (u : SyncUnit) : AppendsOKEvents (retryPendingItems u) := by
  unfold retryPendingItems
  apply aoe_tryCatch
  · apply aoe_bind (aoe_storeGetItem _)
    intro stored
    exact aoe_retryItemsLoop _ _
  · intro e
    exact aoe_emitError_mk _ _ _

theorem rs_bind {α : Type} {x : M α} {f : α → M (Option Data)}
    (hf : ∀ a, ReturnsSome (f a)) : ReturnsSome (x >>= f) := by
  intro w a w' hrun
  rcases hx : x w with ⟨res, w1⟩
  cases res with
  | ok b =>
      apply hf b w1 a w'
      simpa [hx] using hrun
  | error e =>
      rw [bindM_apply, hx] at hrun
      cases hrun

theorem rs_pure_some (d : Data) : ReturnsSome (pure (some d) : M (Option Data)) := by
  intro w a w' h
  cases h
  simp

theorem run_ec_mono {α : Type} {x : M α} (h : AppendsOKEvents x) {w : World}
    {res : Except JsError α} {w1 : World} (hrun : x w = (res, w1)) :
    errCount w.events ≤ errCount w1.events := by
  have hx := aoe_errCount h w
  rw [hrun] at hx
  exact hx

theorem errCount_snoc_err (evs : List Ev) (e : JsError) (k : String) (dk : Option String) :
    errCount (evs ++ [Ev.err e k dk]) = errCount evs + 1 := by
  simp [errCount_append, errCount, isErrEv]

/-- Running the shared on-exhaustion block (broadcast the wrapped error,
save a pending item, resolve null) always resolves with none and records
at least one more error broadcast. -/
theorem emit_save_none_spec (u : SyncUnit) (m : String) (dk : Option String)
    (p : Data) (sk : String) (w : World) :
    ∃ w', (do
        emitError u (mkAYESyncError m) dk
        savePendingItem u p sk
        pure (none : Option Data)) w = (Except.ok (none : Option Data), w') ∧
      errCount w.events + 1 ≤ errCount w'.events := by
  obtain ⟨a2, w3, hs⟩ := nt_savePendingItem u p sk
    { w with events := w.events ++ [Ev.err (mkAYESyncError m) u.key dk] }
  cases a2
  refine ⟨w3, ?_, ?_⟩
  · simp only [bindM_apply, emitError, hs, pureM_apply]
  · have hmono := run_ec_mono (aoe_savePendingItem u p sk) hs
    simp only [errCount_snoc_err] at hmono
    omega

/-- The retry loop of callSet: for a positive iteration budget it always
resolves, and when it resolves with none (exhaustion) it has recorded at
least one more error broadcast. -/
theorem setRetryLoop_spec (u : SyncUnit) (p : Data) (sk : String) :
    ∀ n, 1 ≤ n → ∀ w, ∃ r w', setRetryLoop u p sk n w = (Except.ok r, w') ∧
      (r = none → errCount w.events + 1 ≤ errCount w'.events) := by
  intro n
  induction n with
  | zero => omega
  | succ k ih =>
      intro _ w
      unfold setRetryLoop
      simp only [tryCatchM_apply]
      split
      case h_1 a w1 heq =>
        refine ⟨a, w1, rfl, fun ha => ?_⟩
        subst ha
        exact absurd rfl
          (rs_bind (fun result =>
              rs_bind (fun _ => rs_bind (fun _ => rs_pure_some result))) w none w1 heq)
      case h_2 e w1 heq =>
        have hmono : errCount w.events ≤ errCount w1.events :=
          run_ec_mono
            (aoe_bind
              (by unfold executeWithTimeout; exact aoe_invokeSetFn)
              (fun result => aoe_bind (aoe_storeSetItem _ _)
                (fun _ => aoe_bind (aoe_emitData _ _ _) (fun _ => aoe_pure _))))
            heq
        by_cases hk : k = 0
        · subst hk
          simp only [if_pos rfl]
          obtain ⟨w', hrun, hec⟩ := emit_save_none_spec u e.message (some sk) p sk w1
          exact ⟨none, w', hrun, fun _ => by omega⟩
        · simp only [if_neg hk]
          obtain ⟨r, w', hrun, himp⟩ := ih (by omega) w1
          refine ⟨r, w', hrun, fun hr => ?_⟩
          have := himp hr
          omega

/-- A try / catch whose body only appends AYESyncError broadcasts and
never resolves with none, and whose handler always resolves and records
an error broadcast when resolving with none, itself always resolves and
records an error broadcast when resolving with none. -/
theorem tryCatch_opt_spec {body : M (Option Data)} {handler : JsError → M (Option Data)}
    (hAoe : AppendsOKEvents body) (hSome : ReturnsSome body)
    (hhand : ∀ e w1, ∃ r w2, handler e w1 = (Except.ok r, w2) ∧
        (r = none → errCount w1.events + 1 ≤ errCount w2.events))
    (w : World) :
    ∃ r w', tryCatchM body handler w = (Except.ok r, w') ∧
      (r = none → errCount w.events + 1 ≤ errCount w'.events) := by
  simp only [tryCatchM_apply]
  split
  case h_1 a w1 heq =>
    exact ⟨a, w1, rfl, fun ha => absurd (ha ▸ heq) (fun hh => hSome w a w1 heq ha)⟩
  case h_2 e w1 heq =>
    have hmono := run_ec_mono hAoe heq
    obtain ⟨r, w2, hrun, himp⟩ := hhand e w1
    refine ⟨r, w2, hrun, fun hr => ?_⟩
    have := himp hr
    omega

/-- C8: on a unit with a write callback and a valid params object,
callSet never throws to its caller, whatever the outcomes of the write
callback (including timeouts, which are one more rejection outcome) and
of the storage adapter: it resolves with some result on a successful
attempt or with none after failure, and in the failure case at least one
more error broadcast has been recorded. -/
theorem callSet_never_throws (u : SyncUnit) (p : JsArg) (w : World)
    (hset : u.hasSetFn = true) (hargs : isValidArg p = true) :
    ∃ r w', callSet u p w = (Except.ok r, w') ∧
      (r = none → errCount w.events + 1 ≤ errCount w'.events) := by
  unfold callSet
  simp only [bindM_apply, requireSetFn, hset, Bool.not_true, Bool.false_eq_true, if_false,
    pureM_apply, validateArgs, hargs, if_true, if_pos]
  apply tryCatch_opt_spec
  · apply aoe_bind (aoe_storeGetItem _)
    intro existing
    apply aoe_bind aoe_isOnlineM
    intro online
    apply aoe_bind (aoe_writeOptimistic _ _ _)
    intro _
    apply aoe_bind
    · show AppendsOKEvents (executeWithTimeout invokeSetFn)
      unfold executeWithTimeout
      exact aoe_invokeSetFn
    · intro result
      apply aoe_bind (aoe_storeSetItem _ _)
      intro _
      apply aoe_bind (aoe_emitData _ _ _)
      intro _
      exact aoe_pure _
  · exact rs_bind (fun existing => rs_bind (fun online => rs_bind (fun _ =>
      rs_bind (fun result => rs_bind (fun _ => rs_bind (fun _ => rs_pure_some result))))))
  · intro e w1
    by_cases hc : u.apiSetRetries = 0 ∨ u.apiSetRetries < 0
    · simp only [if_pos hc]
      obtain ⟨w', hrun, hec⟩ := emit_save_none_spec u e.message
        (some (generateStorageKey u.key u.uniqueProperties (argFields p)))
        (argFields p) (generateStorageKey u.key u.uniqueProperties (argFields p)) w1
      exact ⟨none, w', hrun, fun _ => hec⟩
    · simp only [if_neg hc]
      have hpos : 1 ≤ u.apiSetRetries.toNat := by omega
      exact setRetryLoop_spec u (argFields p)
        (generateStorageKey u.key u.uniqueProperties (argFields p))
        u.apiSetRetries.toNat hpos w1

/-- Witness for C8 at concrete inputs. -/
theorem callSet_never_throws_witness :
    (unitWrite.hasSetFn = true ∧ isValidArg (JsArg.obj [("x", "1")]) = true) ∧
    (∃ r w', callSet unitWrite (JsArg.obj [("x", "1")]) w0 = (Except.ok r, w') ∧
      (r = none → errCount w0.events + 1 ≤ errCount w'.events)) :=
  ⟨⟨rfl, rfl⟩, callSet_never_throws unitWrite (JsArg.obj [("x", "1")]) w0 rfl rfl⟩

/-- C9: registering the same identity key twice on one registry does not
fail with a duplicate-key error: the second definition silently replaces
the first in the key-to-unit map (getDefined then returns the newer
unit), the key is appended to definedKeys once per registration, and
retryAllPendingItems drains the latest unit once per registration. -/
theorem define_duplicate_key_replaces (appName k : String) (ups1 ups2 : List String)
    (n1 n2 : Option Int)
    (h1 : (ups1.filter (fun p => p.length > 0)).length ≠ 0)
    (h2 : (ups2.filter (fun p => p.length > 0)).length ≠ 0) :
    ∃ r1 u1 r2 u2,
      defineReg (mkRegistry appName)
          { key := k, uniqueProperties := ups1, apiSetRetries := n1 } =
        Except.ok (r1, u1) ∧
      defineReg r1 { key := k, uniqueProperties := ups2, apiSetRetries := n2 } =
        Except.ok (r2, u2) ∧
      getDefinedReg r2 k = Except.ok u2 ∧
      u2.apiSetRetries = n2.getD 3 ∧ u2.uniqueProperties = ups2 ∧
      r2.definedKeys = [k, k] ∧
      ∀ w, ∃ w', retryAllPendingItems r2 w = (Except.ok [u2, u2], w') := by
  refine ⟨⟨appName, [k], [(k, ⟨k, appName, n1.getD 3, ups1, false, false⟩)]⟩,
    ⟨k, appName, n1.getD 3, ups1, false, false⟩,
    ⟨appName, [k, k], [(k, ⟨k, appName, n2.getD 3, ups2, false, false⟩)]⟩,
    ⟨k, appName, n2.getD 3, ups2, false, false⟩, ?_, ?_, ?_, rfl, rfl, rfl, ?_⟩
  · simp [defineReg, h1, mkRegistry, mapSet]
  · simp [defineReg, h2, mapSet]
  · simp [getDefinedReg, mapGet]
  · intro w
    obtain ⟨a1, w1, hr1⟩ :=
      nt_retryPendingItems ⟨k, appName, n2.getD 3, ups2, false, false⟩ w
    obtain ⟨a2, w2, hr2⟩ :=
      nt_retryPendingItems ⟨k, appName, n2.getD 3, ups2, false, false⟩ w1
    cases a1
    cases a2
    refine ⟨w2, ?_⟩
    simp [retryAllPendingItems, retryAllLoop, mapGet, hr1, hr2]

/-- Witness for C9 at concrete inputs. -/
theorem define_duplicate_key_replaces_witness :
    ((["u"].filter (fun p => p.length > 0)).length ≠ 0 ∧
      (["v"].filter (fun p => p.length > 0)).length ≠ 0) ∧
    (∃ r1 u1 r2 u2,
      defineReg (mkRegistry "app")
          { key := "d", uniqueProperties := ["u"], apiSetRetries := some 5 } =
        Except.ok (r1, u1) ∧
      defineReg r1 { key := "d", uniqueProperties := ["v"], apiSetRetries := some 7 } =
        Except.ok (r2, u2) ∧
      getDefinedReg r2 "d" = Except.ok u2 ∧
      u2.apiSetRetries = (some (7 : Int)).getD 3 ∧ u2.uniqueProperties = ["v"] ∧
      r2.definedKeys = ["d", "d"] ∧
      ∀ w, ∃ w', retryAllPendingItems r2 w = (Except.ok [u2, u2], w')) :=
  ⟨⟨by decide, by decide⟩,
    define_duplicate_key_replaces "app" "d" ["u"] ["v"] (some 5) (some 7)
      (by decide) (by decide)⟩

theorem callGet_error_is_AYE (u : SyncUnit) (args : JsArg) (w : World) (e : JsError)
    (h : (callGet u args w).1 = Except.error e) : isAYEb e = true := by
  rcases hget : u.hasGetFn with _ | _
  · simp [callGet, requireGetFn, hget] at h
    rw [← h]
    exact isAYEb_mk _
  · rcases hargs : isValidArg args with _ | _
    · simp [callGet, requireGetFn, hget, validateArgs, hargs] at h
      rw [← h]
      exact isAYEb_mk _
    · simp only [callGet, requireGetFn, hget, validateArgs, hargs, Bool.not_true,
        Bool.false_eq_true, if_false, if_true, bindM_apply, pureM_apply,
        tryCatchM_apply] at h
      split at h
      · simp at h
      · rename_i e2 w1 heq
        simp [emitError, doYield] at h

theorem callSet_error_is_AYE (u : SyncUnit) (p : JsArg) (w : World) (e : JsError)
    (h : (callSet u p w).1 = Except.error e) : isAYEb e = true := by
  rcases hset : u.hasSetFn with _ | _
  · simp [callSet, requireSetFn, hset] at h
    rw [← h]
    exact isAYEb_mk _
  · rcases hargs : isValidArg p with _ | _
    · simp [callSet, requireSetFn, hset, validateArgs, hargs] at h
      rw [← h]
      exact isAYEb_mk _
    · obtain ⟨r, w', hrun, _⟩ := callSet_never_throws u p w hset hargs
      rw [hrun] at h
      cases h

theorem retryPendingItems_resolves (u : SyncUnit) (w : World) :
    (retryPendingItems u w).1 = Except.ok PUnit.unit := by
  obtain ⟨a, w', hr⟩ := nt_retryPendingItems u w
  cases a
  rw [hr]

theorem defineReg_error_is_AYE (r : Registry) (dp : DefineParams) (e : JsError)
    (h : defineReg r dp = Except.error e) : isAYEb e = true := by
  unfold defineReg at h
  by_cases hc :
      (List.filter (fun p => decide (p.length > 0)) dp.uniqueProperties).length = 0
  · simp only [if_pos hc] at h
    cases h
    exact isAYEb_mk _
  · simp only [if_neg hc] at h
    cases h

theorem getDefinedReg_error_is_AYE (r : Registry) (k : String) (e : JsError)
    (h : getDefinedReg r k = Except.error e) : isAYEb e = true := by
  unfold getDefinedReg at h
  split at h
  · cases h
  · cases h
    exact isAYEb_mk _

/-- C10: every error the modelled operations throw synchronously (the
validation failure, the missing get / set callback guards, the lookup of
an undefined key, the rejected registration) and every error they record
for the error observers is an AYESyncError: its name field is the single
class name and its message begins with the AYESyncError prefix.  The
spec's categories exist only in the message text, not as distinct runtime
types - in the embedding there is one error shape and one constructor
discharging all of them. -/
theorem all_errors_are_AYESyncError (u : SyncUnit) (args pArgs : JsArg) (r : Registry)
    (dp : DefineParams) (k : String) (w : World) (hw : errEventsOK w.events) :
    (∀ e, (callGet u args w).1 = Except.error e → isAYEb e = true) ∧
    errEventsOK ((callGet u args w).2.events) ∧
    (∀ e, (callSet u pArgs w).1 = Except.error e → isAYEb e = true) ∧
    errEventsOK ((callSet u pArgs w).2.events) ∧
    (retryPendingItems u w).1 = Except.ok PUnit.unit ∧
    errEventsOK ((retryPendingItems u w).2.events) ∧
    (∀ e, defineReg r dp = Except.error e → isAYEb e = true) ∧
    (∀ e, getDefinedReg r k = Except.error e → isAYEb e = true) :=
  ⟨fun e h => callGet_error_is_AYE u args w e h,
    aoe_errEventsOK (aoe_callGet u args) w hw,
    fun e h => callSet_error_is_AYE u pArgs w e h,
    aoe_errEventsOK (aoe_callSet u pArgs) w hw,
    retryPendingItems_resolves u w,
    aoe_errEventsOK (aoe_retryPendingItems u) w hw,
    fun e h => defineReg_error_is_AYE r dp e h,
    fun e h => getDefinedReg_error_is_AYE r k e h⟩

/-- Witness for C10 at concrete inputs. -/
theorem all_errors_are_AYESyncError_witness :
    errEventsOK w0.events ∧
    ((∀ e, (callGet unitBare JsArg.null w0).1 = Except.error e → isAYEb e = true) ∧
      errEventsOK ((callGet unitBare JsArg.null w0).2.events) ∧
      (∀ e, (callSet unitBare JsArg.null w0).1 = Except.error e → isAYEb e = true) ∧
      errEventsOK ((callSet unitBare JsArg.null w0).2.events) ∧
      (retryPendingItems unitBare w0).1 = Except.ok PUnit.unit ∧
      errEventsOK ((retryPendingItems unitBare w0).2.events) ∧
      (∀ e, defineReg (mkRegistry "app")
          { key := "d", uniqueProperties := [], apiSetRetries := none } =
          Except.error e → isAYEb e = true) ∧
      (∀ e, getDefinedReg (mkRegistry "app") "d" = Except.error e → isAYEb e = true)) :=
  ⟨errEventsOK_nil,
    all_errors_are_AYESyncError unitBare JsArg.null JsArg.null (mkRegistry "app")
      { key := "d", uniqueProperties := [], apiSetRetries := none } "d" w0 errEventsOK_nil⟩

theorem filter_filter_ne (L1 : List PendingItem) (k2 dk : String) (S : List PendingItem)
    (hf : L1.filter (fun j => j.key = k2) = S) (hS : ∀ j ∈ S, j.dataKey ≠ dk) :
    (L1.filter (fun item => item.dataKey ≠ dk)).filter (fun j => j.key = k2) = S := by
  rw [List.filter_comm, hf]
  apply List.filter_eq_self.mpr
  intro j hj
  simpa using hS j hj

theorem filter_append_item (L1 : List PendingItem) (item : PendingItem) (k2 : String)
    (S : List PendingItem) (hf : L1.filter (fun j => j.key = k2) = S)
    (hkey : ¬(item.key = k2)) :
    (L1 ++ [item]).filter (fun j => j.key = k2) = S := by
  rw [List.filter_append, hf]
  simp [hkey]

theorem lookupStore_storePut_self (k : String) (v : Val) (s : List (String × Val)) :
    lookupStore k (storePut k v s) = some v := by
  simp [storePut, lookupStore]

theorem removePendingItem_pres (u : SyncUnit) (k2 dk : String) (S : List PendingItem)
    (hS : ∀ j ∈ S, j.dataKey ≠ dk) (w : World) (hinv : pendingFilterInv u k2 S w) :
    ∃ w', removePendingItem u dk w = (Except.ok PUnit.unit, w') ∧
      pendingFilterInv u k2 S w' := by
  obtain ⟨L1, hw, hf⟩ := hinv
  obtain ⟨st, ev, yl, tm, onl, gR, sR, sgF, ssF, gC, sC⟩ := w
  simp only at hw
  rcases sgF with _ | ⟨_ | e, sgFr⟩ <;> rcases ssF with _ | ⟨_ | e2, ssFr⟩ <;>
    simp only [removePendingItem, tryCatchM_apply, bindM_apply, storeGetItem,
      storeSetItem, emitError, hw, valToPendingList] <;>
    first
      | exact ⟨_, rfl, L1, hw, hf⟩
      | exact ⟨_, rfl, L1.filter (fun item => item.dataKey ≠ dk),
          lookupStore_storePut_self _ _ _, filter_filter_ne L1 k2 dk S hf hS⟩

theorem savePendingItem_pres (u : SyncUnit) (k2 : String) (p : Data) (dk : String)
    (S : List PendingItem) (hk2 : k2 ≠ u.key) (w : World)
    (hinv : pendingFilterInv u k2 S w) :
    ∃ w', savePendingItem u p dk w = (Except.ok PUnit.unit, w') ∧
      pendingFilterInv u k2 S w' := by
  obtain ⟨L1, hw, hf⟩ := hinv
  obtain ⟨st, ev, yl, tm, onl, gR, sR, sgF, ssF, gC, sC⟩ := w
  simp only at hw
  rcases sgF with _ | ⟨_ | e, sgFr⟩ <;> rcases ssF with _ | ⟨_ | e2, ssFr⟩ <;>
    simp only [savePendingItem, tryCatchM_apply, bindM_apply, storeGetItem,
      storeSetItem, emitError, tick, hw, valToPendingList] <;>
    first
      | exact ⟨_, rfl, L1, hw, hf⟩
      | exact ⟨_, rfl, _, lookupStore_storePut_self _ _ _,
          filter_append_item L1 _ k2 S hf (fun hc => hk2 hc.symm)⟩

theorem itemHandler_pres (u : SyncUnit) (k2 : String) (S : List PendingItem)
    (item : PendingItem) (hS : ∀ j ∈ S, j.dataKey ≠ item.dataKey) (hk2 : k2 ≠ u.key)
    (w : World) (hinv : pendingFilterInv u k2 S w) :
    ∃ w', (if item.maxRetryCount = 0 ∨ item.maxRetryCount ≤ 0 then
        removePendingItem u item.dataKey
      else if item.dataKey.length > 0 then
        savePendingItem u item.params item.dataKey
      else pure PUnit.unit) w = (Except.ok PUnit.unit, w') ∧
      pendingFilterInv u k2 S w' := by
  by_cases h1 : item.maxRetryCount = 0 ∨ item.maxRetryCount ≤ 0
  · simp only [if_pos h1]
    exact removePendingItem_pres u k2 item.dataKey S hS w hinv
  · simp only [if_neg h1]
    by_cases h2 : item.dataKey.length > 0
    · simp only [if_pos h2]
      exact savePendingItem_pres u k2 item.params item.dataKey S hk2 w hinv
    · simp only [if_neg h2]
      exact ⟨w, rfl, hinv⟩

/-- Replaying one unit's items preserves the other owner's sublist of the
pending list, provided every replayed item's dataKey avoids the reserved
key and the other owner's dataKeys. -/
theorem retryItemsLoop_pres (u : SyncUnit) (k2 : String) (S : List PendingItem)
    (hk2 : k2 ≠ u.key) :
    ∀ items : List PendingItem,
      (∀ i ∈ items, i.dataKey ≠ getPendingItemsLocalKey u ∧
        ∀ j ∈ S, j.dataKey ≠ i.dataKey) →
      ∀ w, pendingFilterInv u k2 S w →
      ∃ w', retryItemsLoop u items w = (Except.ok PUnit.unit, w') ∧
        pendingFilterInv u k2 S w' := by
  intro items
  induction items with
  | nil =>
      intro _ w hinv
      exact ⟨w, rfl, hinv⟩
  | cons item rest ih =>
      intro hitems w hinv
      obtain ⟨hdk, hS⟩ := hitems item (List.mem_cons_self item rest)
      have hrest := fun i hi => hitems i (List.mem_cons_of_mem item hi)
      rcases hsf : u.hasSetFn with _ | _
      · obtain ⟨w', hrun, hinv'⟩ := ih hrest w hinv
        refine ⟨w', ?_, hinv'⟩
        simp only [retryItemsLoop, bindM_apply, tryCatchM_apply, invokeSetFnOpt, hsf,
          Bool.false_eq_true, if_false, pureM_apply, hrun]
      · obtain ⟨st, ev, yl, tm, onl, gR, sR, sgF, ssF, gC, sC⟩ := w
        obtain ⟨L1, hw, hf⟩ := hinv
        simp only at hw
        rcases sR with _ | ⟨r1, sRtl⟩
        -- exhausted stream: the callback invocation rejects
        · obtain ⟨w', hh, hinv'⟩ := itemHandler_pres u k2 S item hS hk2
            { store := st, events := ev, yields := yl, time := tm, online := onl,
              getFnResults := gR, setFnResults := [], storeGetFails := sgF,
              storeSetFails := ssF, getCalls := gC, setCalls := sC + 1 }
            ⟨L1, hw, hf⟩
          obtain ⟨w'', hrun, hinv''⟩ := ih hrest w' hinv'
          refine ⟨w'', ?_, hinv''⟩
          simp only [retryItemsLoop, bindM_apply, tryCatchM_apply, invokeSetFnOpt, hsf,
            if_true, invokeSetFn, List.head?, List.tail, hh, hrun, pureM_apply]
        · cases r1 with
          | error e =>
              obtain ⟨w', hh, hinv'⟩ := itemHandler_pres u k2 S item hS hk2
                { store := st, events := ev, yields := yl, time := tm, online := onl,
                  getFnResults := gR, setFnResults := sRtl, storeGetFails := sgF,
                  storeSetFails := ssF, getCalls := gC, setCalls := sC + 1 }
                ⟨L1, hw, hf⟩
              obtain ⟨w'', hrun, hinv''⟩ := ih hrest w' hinv'
              refine ⟨w'', ?_, hinv''⟩
              simp only [retryItemsLoop, bindM_apply, tryCatchM_apply, invokeSetFnOpt, hsf,
                if_true, invokeSetFn, List.head?, List.tail, hh, hrun, pureM_apply]
          | ok d =>
              by_cases hne : item.dataKey ≠ ""
              · rcases ssF with _ | ⟨s1, ssFtl⟩
                · have hw2 : lookupStore (getPendingItemsLocalKey u)
                      (storePut item.dataKey (Val.data d) st) = some (Val.list L1) := by
                    rw [lookupStore_storePut_ne _ _ _ _ hdk]
                    exact hw
                  obtain ⟨w3, hr3, hinv3⟩ := removePendingItem_pres u k2 item.dataKey S hS
                    { store := storePut item.dataKey (Val.data d) st, events := ev,
                      yields := yl, time := tm, online := onl, getFnResults := gR,
                      setFnResults := sRtl, storeGetFails := sgF, storeSetFails := [],
                      getCalls := gC, setCalls := sC + 1 }
                    ⟨L1, hw2, hf⟩
                  obtain ⟨w'', hrun, hinv''⟩ := ih hrest w3 hinv3
                  refine ⟨w'', ?_, hinv''⟩
                  simp only [retryItemsLoop, bindM_apply, tryCatchM_apply, invokeSetFnOpt,
                    hsf, if_true, invokeSetFn, List.head?, List.tail, if_pos hne,
                    storeSetItem, hr3, hrun, pureM_apply]
                · cases s1 with
                  | none =>
                      have hw2 : lookupStore (getPendingItemsLocalKey u)
                          (storePut item.dataKey (Val.data d) st) = some (Val.list L1) := by
                        rw [lookupStore_storePut_ne _ _ _ _ hdk]
                        exact hw
                      obtain ⟨w3, hr3, hinv3⟩ := removePendingItem_pres u k2 item.dataKey S hS
                        { store := storePut item.dataKey (Val.data d) st, events := ev,
                          yields := yl, time := tm, online := onl, getFnResults := gR,
                          setFnResults := sRtl, storeGetFails := sgF, storeSetFails := ssFtl,
                          getCalls := gC, setCalls := sC + 1 }
                        ⟨L1, hw2, hf⟩
                      obtain ⟨w'', hrun, hinv''⟩ := ih hrest w3 hinv3
                      refine ⟨w'', ?_, hinv''⟩
                      simp only [retryItemsLoop, bindM_apply, tryCatchM_apply, invokeSetFnOpt,
                        hsf, if_true, invokeSetFn, List.head?, List.tail, if_pos hne,
                        storeSetItem, hr3, hrun, pureM_apply]
                  | some e2 =>
                      obtain ⟨w', hh, hinv'⟩ := itemHandler_pres u k2 S item hS hk2
                        { store := st, events := ev, yields := yl, time := tm, online := onl,
                          getFnResults := gR, setFnResults := sRtl, storeGetFails := sgF,
                          storeSetFails := ssFtl, getCalls := gC, setCalls := sC + 1 }
                        ⟨L1, hw, hf⟩
                      obtain ⟨w'', hrun, hinv''⟩ := ih hrest w' hinv'
                      refine ⟨w'', ?_, hinv''⟩
                      simp only [retryItemsLoop, bindM_apply, tryCatchM_apply, invokeSetFnOpt,
                        hsf, if_true, invokeSetFn, List.head?, List.tail, if_pos hne,
                        storeSetItem, hh, hrun, pureM_apply]
              · obtain ⟨w'', hrun, hinv''⟩ := ih hrest
                  { store := st, events := ev, yields := yl, time := tm, online := onl,
                    getFnResults := gR, setFnResults := sRtl, storeGetFails := sgF,
                    storeSetFails := ssF, getCalls := gC, setCalls := sC + 1 }
                  ⟨L1, hw, hf⟩
                refine ⟨w'', ?_, hinv''⟩
                simp only [retryItemsLoop, bindM_apply, tryCatchM_apply, invokeSetFnOpt,
                  hsf, if_true, invokeSetFn, List.head?, List.tail, if_neg hne,
                  hrun, pureM_apply]

/-- C7 (amended): draining entity u never mutates or removes the pending
items owned by a second entity k2, provided no pending item of u carries
the same dataKey as an item of k2 (and none collides with the reserved
pending-list key itself): after the drain the stored list still exists
and its k2-owned sublist is unchanged.  The proviso is necessary - see
the counterexample - because removal is keyed by dataKey alone. -/
theorem drain_owner_isolation_amended (u : SyncUnit) (k2 : String) (w : World)
    (L : List PendingItem)
    (hL : lookupStore (getPendingItemsLocalKey u) w.store = some (Val.list L))
    (hk2 : k2 ≠ u.key)
    (hsep : ∀ i ∈ L, i.key = u.key →
      i.dataKey ≠ getPendingItemsLocalKey u ∧
      ∀ j ∈ L, j.key = k2 → j.dataKey ≠ i.dataKey) :
    ∃ w', retryPendingItems u w = (Except.ok PUnit.unit, w') ∧
      ∃ L', lookupStore (getPendingItemsLocalKey u) w'.store = some (Val.list L') ∧
        L'.filter (fun j => j.key = k2) = L.filter (fun j => j.key = k2) := by
  have hcond : ∀ i ∈ L.filter (fun item => item.key = u.key),
      i.dataKey ≠ getPendingItemsLocalKey u ∧
      ∀ j ∈ L.filter (fun j => j.key = k2), j.dataKey ≠ i.dataKey := by
    intro i hi
    rw [List.mem_filter] at hi
    obtain ⟨hiL, hiKey⟩ := hi
    obtain ⟨h1, h2⟩ := hsep i hiL (by simpa using hiKey)
    refine ⟨h1, ?_⟩
    intro j hj
    rw [List.mem_filter] at hj
    exact h2 j hj.1 (by simpa using hj.2)
  obtain ⟨st, ev, yl, tm, onl, gR, sR, sgF, ssF, gC, sC⟩ := w
  simp only at hL
  rcases sgF with _ | ⟨_ | e, sgFr⟩
  · obtain ⟨w', hrun, L', hw', hf'⟩ := retryItemsLoop_pres u k2
      (L.filter (fun j => j.key = k2)) hk2 (L.filter (fun item => item.key = u.key)) hcond
      { store := st, events := ev, yields := yl, time := tm, online := onl,
        getFnResults := gR, setFnResults := sR, storeGetFails := [],
        storeSetFails := ssF, getCalls := gC, setCalls := sC }
      (by exact ⟨L, hL, rfl⟩)
    refine ⟨w', ?_, L', hw', hf'⟩
    simp only [retryPendingItems, tryCatchM_apply, bindM_apply, storeGetItem, hL,
      valToPendingList, hrun]
  · obtain ⟨w', hrun, L', hw', hf'⟩ := retryItemsLoop_pres u k2
      (L.filter (fun j => j.key = k2)) hk2 (L.filter (fun item => item.key = u.key)) hcond
      { store := st, events := ev, yields := yl, time := tm, online := onl,
        getFnResults := gR, setFnResults := sR, storeGetFails := sgFr,
        storeSetFails := ssF, getCalls := gC, setCalls := sC }
      (by exact ⟨L, hL, rfl⟩)
    refine ⟨w', ?_, L', hw', hf'⟩
    simp only [retryPendingItems, tryCatchM_apply, bindM_apply, storeGetItem, hL,
      valToPendingList, hrun]
  · refine ⟨_, rfl, L, ?_, rfl⟩
    exact hL

/-- Witness for the amended C7 at concrete inputs. -/
theorem drain_owner_isolation_amended_witness :
    (lookupStore (getPendingItemsLocalKey unitOwnerA) wIso.store =
        some (Val.list [itemOwnerA, itemOwnerZ]) ∧
      "z" ≠ unitOwnerA.key ∧
      ∀ i ∈ [itemOwnerA, itemOwnerZ], i.key = unitOwnerA.key →
        i.dataKey ≠ getPendingItemsLocalKey unitOwnerA ∧
        ∀ j ∈ [itemOwnerA, itemOwnerZ], j.key = "z" → j.dataKey ≠ i.dataKey) ∧
    (∃ w', retryPendingItems unitOwnerA wIso = (Except.ok PUnit.unit, w') ∧
      ∃ L', lookupStore (getPendingItemsLocalKey unitOwnerA) w'.store =
          some (Val.list L') ∧
        L'.filter (fun j => j.key = "z") =
          [itemOwnerA, itemOwnerZ].filter (fun j => j.key = "z")) :=
  ⟨⟨rfl, by decide, by decide⟩,
    drain_owner_isolation_amended unitOwnerA "z" wIso [itemOwnerA, itemOwnerZ]
      rfl (by decide) (by decide)⟩
